import Mathlib

/-!
Verification of the RaïWave audio-enhancer front end.

The parameter model, preset logic, undo/redo history and cloud-library
persistence are embedded from `src/views/Enhancer.tsx` and
`src/services/cloudService.ts`.  The offline render engine
(`renderAudioFromBuffer` and friends in `services/audioUtils`) is not part of
the provided sources; where a property concerns it, the engine is modelled
from the specification text and the definition says so in its doc string.
Numeric control values are embedded as rationals (`ℚ`), which the decimal
literals of the source denote exactly.
-/

/-- The flat parameter record `AudioProcessParams` of the UI
(`src/views/Enhancer.tsx`, via `../types`).  All twenty-one controls are
floating-point numbers in the source; they are embedded as rationals. -/
structure AudioProcessParams where
  pitch : ℚ
  stretch : ℚ
  denoise : ℚ
  deess : ℚ
  reverb : ℚ
  reverbDecay : ℚ
  masterReverb : ℚ
  stereo : ℚ
  drive : ℚ
  shift : ℚ
  delay : ℚ
  delayTime : ℚ
  delayFeedback : ℚ
  eqBass : ℚ
  eqMid : ℚ
  eqAir : ℚ
  master : ℚ
  vibratoDepth : ℚ
  vibratoSpeed : ℚ
  ringMod : ℚ
  backingVocals : ℚ

instance : DecidableEq AudioProcessParams := fun a b =>
  decidable_of_iff
    (a.pitch = b.pitch ∧ a.stretch = b.stretch ∧ a.denoise = b.denoise ∧
     a.deess = b.deess ∧ a.reverb = b.reverb ∧ a.reverbDecay = b.reverbDecay ∧
     a.masterReverb = b.masterReverb ∧ a.stereo = b.stereo ∧
     a.drive = b.drive ∧ a.shift = b.shift ∧ a.delay = b.delay ∧
     a.delayTime = b.delayTime ∧ a.delayFeedback = b.delayFeedback ∧
     a.eqBass = b.eqBass ∧ a.eqMid = b.eqMid ∧ a.eqAir = b.eqAir ∧
     a.master = b.master ∧ a.vibratoDepth = b.vibratoDepth ∧
     a.vibratoSpeed = b.vibratoSpeed ∧ a.ringMod = b.ringMod ∧
     a.backingVocals = b.backingVocals)
    (by cases a; cases b; simp)

/-- `INITIAL_PARAMS` of `src/views/Enhancer.tsx`, field for field. -/
def INITIAL_PARAMS : AudioProcessParams :=
  { pitch := 0
    stretch := 1.0
    denoise := 0.1
    deess := 0.2
    reverb := 0.1
    reverbDecay := 1.5
    masterReverb := 1.0
    stereo := 0.1
    drive := 0.0
    shift := 0.0
    delay := 0.0
    delayTime := 0.3
    delayFeedback := 0.3
    eqBass := 0
    eqMid := 0
    eqAir := 0
    master := 0
    vibratoDepth := 0
    vibratoSpeed := 0
    ringMod := 0
    backingVocals := 0 }

/-- The keys of `AudioProcessParams` (`keyof AudioProcessParams` in the
source). -/
inductive ParamKey where
  | pitch | stretch | denoise | deess | reverb | reverbDecay | masterReverb
  | stereo | drive | shift | delay | delayTime | delayFeedback
  | eqBass | eqMid | eqAir | master | vibratoDepth | vibratoSpeed
  | ringMod | backingVocals
deriving DecidableEq, Repr

/-- Dynamic field read `params[key]`. -/
def getParam (p : AudioProcessParams) : ParamKey → ℚ
  | .pitch => p.pitch
  | .stretch => p.stretch
  | .denoise => p.denoise
  | .deess => p.deess
  | .reverb => p.reverb
  | .reverbDecay => p.reverbDecay
  | .masterReverb => p.masterReverb
  | .stereo => p.stereo
  | .drive => p.drive
  | .shift => p.shift
  | .delay => p.delay
  | .delayTime => p.delayTime
  | .delayFeedback => p.delayFeedback
  | .eqBass => p.eqBass
  | .eqMid => p.eqMid
  | .eqAir => p.eqAir
  | .master => p.master
  | .vibratoDepth => p.vibratoDepth
  | .vibratoSpeed => p.vibratoSpeed
  | .ringMod => p.ringMod
  | .backingVocals => p.backingVocals

/-- The object spread `{ ...params, [key]: value }` used by `updateParam`
in `src/views/Enhancer.tsx`: a fresh record equal to `p` except at `k`. -/
def setParam (k : ParamKey) (v : ℚ) (p : AudioProcessParams) :
    AudioProcessParams :=
  match k with
  | .pitch => { p with pitch := v }
  | .stretch => { p with stretch := v }
  | .denoise => { p with denoise := v }
  | .deess => { p with deess := v }
  | .reverb => { p with reverb := v }
  | .reverbDecay => { p with reverbDecay := v }
  | .masterReverb => { p with masterReverb := v }
  | .stereo => { p with stereo := v }
  | .drive => { p with drive := v }
  | .shift => { p with shift := v }
  | .delay => { p with delay := v }
  | .delayTime => { p with delayTime := v }
  | .delayFeedback => { p with delayFeedback := v }
  | .eqBass => { p with eqBass := v }
  | .eqMid => { p with eqMid := v }
  | .eqAir => { p with eqAir := v }
  | .master => { p with master := v }
  | .vibratoDepth => { p with vibratoDepth := v }
  | .vibratoSpeed => { p with vibratoSpeed := v }
  | .ringMod => { p with ringMod := v }
  | .backingVocals => { p with backingVocals := v }

/-- The slider controls rendered by `Enhancer.tsx` (the `SliderControl`
elements, lines 578-605): each with the `min` and `max` attribute the JSX
passes.  These are the only parameter keys a slider can write through
`updateParam`. -/
def sliderControls : List (ParamKey × ℚ × ℚ) :=
  [ (.backingVocals, 0, 1)
  , (.pitch, -12, 12)
  , (.stretch, 0.5, 1.5)
  , (.ringMod, 0, 1)
  , (.vibratoDepth, 0, 10)
  , (.reverb, 0, 1)
  , (.reverbDecay, 0.5, 5)
  , (.delay, 0, 1)
  , (.delayTime, 0.01, 1)
  , (.masterReverb, 0, 1)
  , (.drive, 0, 1) ]

/-- First statement of `applyPreset` in `src/views/Enhancer.tsx`:
`const newParams = { ...params, ringMod: 0, vibratoDepth: 0, backingVocals: 0 }`. -/
def resetFx (params : AudioProcessParams) : AudioProcessParams :=
  { params with ringMod := 0, vibratoDepth := 0, backingVocals := 0 }

/-- The `if (name === 'Child')` block of `applyPreset`. -/
def childStep (name : String) (p : AudioProcessParams) : AudioProcessParams :=
  if name = "Child" then
    { p with pitch := 6, stretch := 1.0, eqBass := -5, eqAir := 5 }
  else p

/-- The `if (name === 'Giant')` block of `applyPreset`. -/
def giantStep (name : String) (p : AudioProcessParams) : AudioProcessParams :=
  if name = "Giant" then
    { p with
        pitch := -4, stretch := 1.0, eqBass := 8, eqAir := -5, drive := 0.2 }
  else p

/-- The `if (name === 'Robot')` block of `applyPreset`. -/
def robotStep (name : String) (p : AudioProcessParams) : AudioProcessParams :=
  if name = "Robot" then
    { p with pitch := 0, ringMod := 0.6, drive := 0.4 }
  else p

/-- The `if (name === 'Alien')` block of `applyPreset`. -/
def alienStep (name : String) (p : AudioProcessParams) : AudioProcessParams :=
  if name = "Alien" then
    { p with
        pitch := 0, vibratoDepth := 8.0, vibratoSpeed := 10, delay := 0.2 }
  else p

/-- The `if (name === 'Chorus')` block of `applyPreset`. -/
def chorusStep (name : String) (p : AudioProcessParams) : AudioProcessParams :=
  if name = "Chorus" then
    { p with backingVocals := 0.6, reverb := 0.3, stereo := 0.8 }
  else p

/-- The `if (name === 'Nightcore')` block of `applyPreset`. -/
def nightcoreStep (name : String) (p : AudioProcessParams) :
    AudioProcessParams :=
  if name = "Nightcore" then
    { p with pitch := 3, stretch := 0.88, eqAir := 3, denoise := 0 }
  else p

/-- The `if (name === 'Slowed')` block of `applyPreset`. -/
def slowedStep (name : String) (p : AudioProcessParams) : AudioProcessParams :=
  if name = "Slowed" then
    { p with
        pitch := -3, stretch := 1.15, reverb := 0.5, reverbDecay := 2.5,
        eqBass := 4 }
  else p

/-- The `if (name === 'CopyrightBypass')` block of `applyPreset`. -/
def copyrightStep (name : String) (p : AudioProcessParams) :
    AudioProcessParams :=
  if name = "CopyrightBypass" then
    { p with
        pitch := 0.7, stretch := 0.97, drive := 0.15, eqMid := 1.5,
        stereo := 0.6 }
  else p

/-- `applyPreset` of `src/views/Enhancer.tsx`: starts from
`{ ...params, ringMod: 0, vibratoDepth: 0, backingVocals: 0 }` and then runs
the sequence of `if (name === …)` blocks in source order, each overwriting
the fields the source assigns. -/
def applyPreset (name : String) (params : AudioProcessParams) :
    AudioProcessParams :=
  copyrightStep name (slowedStep name (nightcoreStep name (chorusStep name
    (alienStep name (robotStep name (giantStep name (childStep name
      (resetFx params))))))))

/-- The declared `[min, max]` domains of the parameter table (spec §3); only
the fifteen controls with a numeric domain are constrained (`eqBass`,
`eqMid`, `eqAir`, `master`, `vibratoSpeed` and `shift` have no declared
numeric bounds). -/
def inDomain (p : AudioProcessParams) : Prop :=
  -12 ≤ p.pitch ∧ p.pitch ≤ 12 ∧
  0.5 ≤ p.stretch ∧ p.stretch ≤ 1.5 ∧
  0 ≤ p.denoise ∧ p.denoise ≤ 1 ∧
  0 ≤ p.deess ∧ p.deess ≤ 1 ∧
  0 ≤ p.reverb ∧ p.reverb ≤ 1 ∧
  0.5 ≤ p.reverbDecay ∧ p.reverbDecay ≤ 5 ∧
  0 ≤ p.masterReverb ∧ p.masterReverb ≤ 1 ∧
  0 ≤ p.stereo ∧ p.stereo ≤ 1 ∧
  0 ≤ p.drive ∧ p.drive ≤ 1 ∧
  0 ≤ p.delay ∧ p.delay ≤ 1 ∧
  0.01 ≤ p.delayTime ∧ p.delayTime ≤ 1 ∧
  0 ≤ p.delayFeedback ∧ p.delayFeedback ≤ 1 ∧
  0 ≤ p.vibratoDepth ∧ p.vibratoDepth ≤ 10 ∧
  0 ≤ p.ringMod ∧ p.ringMod ≤ 1 ∧
  0 ≤ p.backingVocals ∧ p.backingVocals ≤ 1

instance (p : AudioProcessParams) : Decidable (inDomain p) := by
  unfold inDomain; infer_instance

/-- The parameter objects the UI surface of `Enhancer.tsx` produces (per
claim surface): the initial object, any slider update through `updateParam`
with a value inside that slider's `min`/`max`, and any `applyPreset`
result. -/
inductive ReachableParams : AudioProcessParams → Prop where
  | initial : ReachableParams INITIAL_PARAMS
  | slider {p : AudioProcessParams} (k : ParamKey) (lo hi v : ℚ) :
      ReachableParams p → (k, lo, hi) ∈ sliderControls →
      lo ≤ v → v ≤ hi → ReachableParams (setParam k v p)
  | preset {p : AudioProcessParams} (name : String) :
      ReachableParams p → ReachableParams (applyPreset name p)

/-- The shape of the object returned by `analyzeAudioBuffer`
(`services/audioUtils`, not among the provided sources) and spread over the
current params in `handleAutoEnhance`: a partial parameter set, `none`
meaning the key is absent from the suggestion object. -/
structure AnalysisSuggestion where
  pitch : Option ℚ := none
  stretch : Option ℚ := none
  denoise : Option ℚ := none
  deess : Option ℚ := none
  reverb : Option ℚ := none
  reverbDecay : Option ℚ := none
  masterReverb : Option ℚ := none
  stereo : Option ℚ := none
  drive : Option ℚ := none
  shift : Option ℚ := none
  delay : Option ℚ := none
  delayTime : Option ℚ := none
  delayFeedback : Option ℚ := none
  eqBass : Option ℚ := none
  eqMid : Option ℚ := none
  eqAir : Option ℚ := none
  master : Option ℚ := none
  vibratoDepth : Option ℚ := none
  vibratoSpeed : Option ℚ := none
  ringMod : Option ℚ := none
  backingVocals : Option ℚ := none

/-- Dynamic field read on a suggestion object. -/
def getSuggestion (s : AnalysisSuggestion) : ParamKey → Option ℚ
  | .pitch => s.pitch
  | .stretch => s.stretch
  | .denoise => s.denoise
  | .deess => s.deess
  | .reverb => s.reverb
  | .reverbDecay => s.reverbDecay
  | .masterReverb => s.masterReverb
  | .stereo => s.stereo
  | .drive => s.drive
  | .shift => s.shift
  | .delay => s.delay
  | .delayTime => s.delayTime
  | .delayFeedback => s.delayFeedback
  | .eqBass => s.eqBass
  | .eqMid => s.eqMid
  | .eqAir => s.eqAir
  | .master => s.master
  | .vibratoDepth => s.vibratoDepth
  | .vibratoSpeed => s.vibratoSpeed
  | .ringMod => s.ringMod
  | .backingVocals => s.backingVocals

/-- The object spread `{ ...params, ...suggestions }` of `handleAutoEnhance`
(`src/views/Enhancer.tsx`): every key present in `suggestions` overrides the
corresponding key of `params`; absent keys are taken from `params`.  A fresh
object is built; neither argument is modified. -/
def mergeParams (p : AudioProcessParams) (s : AnalysisSuggestion) :
    AudioProcessParams :=
  { pitch := s.pitch.getD p.pitch
    stretch := s.stretch.getD p.stretch
    denoise := s.denoise.getD p.denoise
    deess := s.deess.getD p.deess
    reverb := s.reverb.getD p.reverb
    reverbDecay := s.reverbDecay.getD p.reverbDecay
    masterReverb := s.masterReverb.getD p.masterReverb
    stereo := s.stereo.getD p.stereo
    drive := s.drive.getD p.drive
    shift := s.shift.getD p.shift
    delay := s.delay.getD p.delay
    delayTime := s.delayTime.getD p.delayTime
    delayFeedback := s.delayFeedback.getD p.delayFeedback
    eqBass := s.eqBass.getD p.eqBass
    eqMid := s.eqMid.getD p.eqMid
    eqAir := s.eqAir.getD p.eqAir
    master := s.master.getD p.master
    vibratoDepth := s.vibratoDepth.getD p.vibratoDepth
    vibratoSpeed := s.vibratoSpeed.getD p.vibratoSpeed
    ringMod := s.ringMod.getD p.ringMod
    backingVocals := s.backingVocals.getD p.backingVocals }

/-- Multi-channel PCM buffer (spec §3): a sample rate, a shared frame count
and per-channel sample sequences. -/
structure AudioBuffer where
  sampleRate : ℕ
  frameCount : ℕ
  channels : List (List ℚ)

/-- Structural validity of a buffer (spec §6): positive sample rate and all
channels of length `frameCount`. -/
def structurallyValid (b : AudioBuffer) : Prop :=
  0 < b.sampleRate ∧ ∀ ch ∈ b.channels, ch.length = b.frameCount

instance (b : AudioBuffer) : Decidable (structurallyValid b) := by
  unfold structurallyValid; infer_instance

/-- `duration = frameCount / sampleRate` (spec §3). -/
def duration (b : AudioBuffer) : ℚ := (b.frameCount : ℚ) / (b.sampleRate : ℚ)

/-- Clamp `x` into `[lo, hi]`. -/
def clampQ (lo hi x : ℚ) : ℚ := max lo (min hi x)

/-- Modelled from the spec: parameter validation at pipeline entry (§4.2,
§7) — every control with a declared `[min, max]` domain (§3 table) is
clamped into it once, before any stage runs; controls without a declared
numeric domain (`eqBass`, `eqMid`, `eqAir`, `master`, `vibratoSpeed`,
`shift`) pass through.  Out-of-domain values are not errors. -/
def clampParams (p : AudioProcessParams) : AudioProcessParams :=
  { p with
      pitch := clampQ (-12) 12 p.pitch
      stretch := clampQ 0.5 1.5 p.stretch
      denoise := clampQ 0 1 p.denoise
      deess := clampQ 0 1 p.deess
      reverb := clampQ 0 1 p.reverb
      reverbDecay := clampQ 0.5 5 p.reverbDecay
      masterReverb := clampQ 0 1 p.masterReverb
      stereo := clampQ 0 1 p.stereo
      drive := clampQ 0 1 p.drive
      delay := clampQ 0 1 p.delay
      delayTime := clampQ 0.01 1 p.delayTime
      delayFeedback := clampQ 0 1 p.delayFeedback
      vibratoDepth := clampQ 0 10 p.vibratoDepth
      ringMod := clampQ 0 1 p.ringMod
      backingVocals := clampQ 0 1 p.backingVocals }

/-- Apply a per-sample transform to every channel. -/
def mapSamples (f : ℚ → ℚ) (b : AudioBuffer) : AudioBuffer :=
  { b with channels := b.channels.map (fun ch => ch.map f) }

/-- A rational triangle oscillator in `[-1, 1]`, the carrier/LFO shape used
by the modelled modulation stages. -/
def triangleWave (t : ℚ) : ℚ := 4 * |Int.fract t - 1/2| - 1

/-- Modelled from the spec: Noise Reduction stage (§4.2) — attenuates a
level proportional to `denoise` (a noise gate); identity at `denoise = 0`. -/
def denoiseStage (denoise : ℚ) (b : AudioBuffer) : AudioBuffer :=
  mapSamples (fun x => if |x| ≤ denoise / 50 then 0 else x) b

/-- Modelled from the spec: De-essing stage (§4.2) — attenuates sibilance
proportional to `deess`; identity at `deess = 0`. -/
def deessStage (deess : ℚ) (b : AudioBuffer) : AudioBuffer :=
  mapSamples (fun x => x * (1 - deess / 5)) b

/-- Modelled from the spec: the pitch half of the Pitch/Time-Stretch stage
(§4.2) — resamples by a pitch-dependent read rate but writes exactly
`frameCount` output frames, so a pitch shift never alters duration.  The
pitch-to-ratio curve itself is an implementation choice not observable in
the provided sources. -/
def pitchShiftStage (pitch : ℚ) (b : AudioBuffer) : AudioBuffer :=
  { b with channels := b.channels.map (fun ch =>
      (List.range b.frameCount).map (fun (i : ℕ) =>
        ch.getD (⌊(i : ℚ) * (1 + pitch / 24)⌋.toNat) 0)) }

/-- Modelled from the spec: the time half of the Pitch/Time-Stretch stage
(§4.2) — `output frameCount = round(input frameCount × stretch)`; samples
are produced by inverse index mapping into the input. -/
def stretchStage (stretch : ℚ) (b : AudioBuffer) : AudioBuffer :=
  let outFrames := (round ((b.frameCount : ℚ) * stretch)).toNat
  { sampleRate := b.sampleRate
    frameCount := outFrames
    channels := b.channels.map (fun ch =>
      (List.range outFrames).map (fun (i : ℕ) =>
        ch.getD (⌊(i : ℚ) * (b.frameCount : ℚ) / (outFrames : ℚ)⌋.toNat) 0)) }

/-- Modelled from the spec: EQ stage (§4.2) — three-band tone shaping with a
rational gain curve; identity at 0 dB on every band. -/
def eqStage (bass mid air : ℚ) (b : AudioBuffer) : AudioBuffer :=
  mapSamples (fun x => x * (1 + (bass + mid + air) / 60)) b

/-- Modelled from the spec: Drive stage (§4.2) — soft saturation
`x / (1 + drive·|x|)`; identity at `drive = 0`. -/
def driveStage (drive : ℚ) (b : AudioBuffer) : AudioBuffer :=
  mapSamples (fun x => x / (1 + drive * |x|)) b

/-- Modelled from the spec: Vibrato stage (§4.2) — a pitch LFO realised as
index modulation at rate `speed` and depth `depth`; identity at depth 0. -/
def vibratoStage (depth speed : ℚ) (b : AudioBuffer) : AudioBuffer :=
  { b with channels := b.channels.map (fun ch =>
      (List.range b.frameCount).map (fun (i : ℕ) =>
        ch.getD (⌊(i : ℚ) + depth *
          triangleWave ((i : ℚ) * speed / (b.sampleRate : ℚ))⌋).toNat 0)) }

/-- Modelled from the spec: Ring Modulation stage (§4.2) — multiplies by a
carrier oscillator, dry/wet mixed by `ringMod`; pass-through at 0. -/
def ringModStage (ringMod : ℚ) (b : AudioBuffer) : AudioBuffer :=
  { b with channels := b.channels.map (fun ch =>
      (List.range b.frameCount).map (fun (i : ℕ) =>
        (1 - ringMod) * ch.getD i 0 + ringMod * ch.getD i 0 *
          triangleWave ((i : ℚ) * 30 / (b.sampleRate : ℚ)))) }

/-- Modelled from the spec: Backing Vocals stage (§4.2) — mixes in a
pitch-shifted duplicate (a fixed harmonic interval) at level
`backingVocals`; no mix at 0. -/
def backingVocalsStage (level : ℚ) (b : AudioBuffer) : AudioBuffer :=
  let shifted := pitchShiftStage 4 b
  { b with channels := (b.channels.zip shifted.channels).map (fun cc =>
      (List.range b.frameCount).map (fun (i : ℕ) =>
        cc.1.getD i 0 + level * cc.2.getD i 0)) }

/-- The wet signal of a feedback delay line with tap `d` frames and feedback
gain `fb`: `wet i = dry (i − d) + fb · wet (i − d)`, zero before the first
tap. -/
def delayWetFn (d : ℕ) (fb : ℚ) (dry : ℕ → ℚ) (i : ℕ) : ℚ :=
  if _h : d = 0 then 0
  else if _h2 : i < d then 0
  else dry (i - d) + fb * delayWetFn d fb dry (i - d)
termination_by i
decreasing_by simp_wf; omega

/-- Modelled from the spec: Delay stage (§4.2) — feedback delay line with
tap time `delayTime`, feedback `delayFeedback`, wet mix `delay`. -/
def delayStage (mix dt fb : ℚ) (b : AudioBuffer) : AudioBuffer :=
  let d := max 1 (⌊dt * (b.sampleRate : ℚ)⌋.toNat)
  { b with channels := b.channels.map (fun ch =>
      (List.range b.frameCount).map (fun (i : ℕ) =>
        ch.getD i 0 + mix * delayWetFn d fb (fun j => ch.getD j 0) i)) }

/-- Modelled from the spec: Reverb stage (§4.2) — an algorithmic
reverberator realised as a feedback network whose feedback grows with
`reverbDecay` (capped below 1 for stability), wet-mixed at `reverb`. -/
def reverbStage (decay mix : ℚ) (b : AudioBuffer) : AudioBuffer :=
  let d := max 1 (b.sampleRate / 20)
  let fb := clampQ 0 (9/10) (decay / 10)
  { b with channels := b.channels.map (fun ch =>
      (List.range b.frameCount).map (fun (i : ℕ) =>
        ch.getD i 0 + mix * delayWetFn d fb (fun j => ch.getD j 0) i)) }

/-- Modelled from the spec: Stereo Widening stage (§4.2) — mid/side
widening on a two-channel buffer, a no-op on any other channel layout. -/
def stereoStage (width : ℚ) (b : AudioBuffer) : AudioBuffer :=
  match h : b.channels with
  | [l, r] =>
      { b with channels :=
          [ (l.zip r).map (fun s => s.1 + width * (s.1 - s.2) / 2)
          , (l.zip r).map (fun s => s.2 + width * (s.2 - s.1) / 2) ] }
  | _ => b

/-- Modelled from the spec: Master Reverb Send stage (§4.2) — a second,
coarser reverb bus mixed at `masterReverb`, after all per-voice stages. -/
def masterReverbSend (mr : ℚ) (b : AudioBuffer) : AudioBuffer :=
  reverbStage 2 mr b

/-- Modelled from the spec: Master Gain stage (§4.2) — final gain with a
hard clip at the output boundary. -/
def masterGainStage (gain : ℚ) (b : AudioBuffer) : AudioBuffer :=
  mapSamples (fun x => clampQ (-1) 1 (x * (1 + gain / 20))) b

/-- Modelled from the spec: the fixed stage order of the Render Pipeline
(§4.2): noise reduction → de-essing → pitch/time-stretch → EQ → drive →
vibrato → ring modulation → backing vocals → delay → reverb → stereo
widening → master reverb send → master gain. -/
def runStages (p : AudioProcessParams) (b : AudioBuffer) : AudioBuffer :=
  masterGainStage p.master (masterReverbSend p.masterReverb
    (stereoStage p.stereo (reverbStage p.reverbDecay p.reverb
      (delayStage p.delay p.delayTime p.delayFeedback
        (backingVocalsStage p.backingVocals (ringModStage p.ringMod
          (vibratoStage p.vibratoDepth p.vibratoSpeed
            (driveStage p.drive (eqStage p.eqBass p.eqMid p.eqAir
              (stretchStage p.stretch (pitchShiftStage p.pitch
                (deessStage p.deess (denoiseStage p.denoise b)))))))))))))

/-- Modelled from the spec: the pipeline processes the buffer in fixed-size
blocks purely for progress reporting (§4.2, §5); one block per 1024 frames,
always at least one. -/
def numBlocks (b : AudioBuffer) : ℕ := b.frameCount / 1024 + 1

/-- Modelled from the spec: the successive values passed to `onProgress`
when the pipeline processes `n` sequential blocks — after block `i` it
reports `(i+1)·100/n` percent. -/
def progressReports (n : ℕ) : List ℕ :=
  (List.range n).map (fun i => (i + 1) * 100 / n)

/-- Modelled from the spec: the render entry point
`render(buffer, params, onProgress) → Buffer` (§4.2, §6) — rejects a
structurally invalid buffer with a `RenderError`, otherwise clamps every
parameter into its declared domain once at pipeline entry and runs the
fixed stage chain, returning the output buffer together with the sequence
of values reported to `onProgress`.  It is a pure function of
`(buffer, params)`; the caller'"'"'s parameter set is taken by value and never
written to. -/
def render (b : AudioBuffer) (p : AudioProcessParams) :
    Except String (AudioBuffer × List ℕ) :=
  if structurallyValid b then
    .ok (runStages (clampParams p) b, progressReports (numBlocks b))
  else .error "RenderError"

/-- A stored cloud-library record (`FeedPost` in `../types` as used by
`cloudService.ts`): key `id`, display `name`, and the `date` used for
sorting, embedded as the integer timestamp `new Date(d).getTime()`. -/
structure FeedPost where
  id : String
  name : String
  date : ℤ
deriving DecidableEq

/-- The comparator-driven sort of `getCloudTracks`
(`src/services/cloudService.ts`):
`.sort((a, b) => new Date(b.date).getTime() - new Date(a.date).getTime())`,
i.e. newest (largest timestamp) first; a stable sort, as ECMAScript
requires. -/
def sortByDateDesc (l : List FeedPost) : List FeedPost :=
  l.mergeSort (fun a b => decide (b.date ≤ a.date))

/-- The IndexedDB path of `getCloudTracks`: `getAll()` yields the stored
records (`stored`), which are then sorted newest-first. -/
def getCloudTracksIDB (stored : List FeedPost) : List FeedPost :=
  sortByDateDesc stored

/-- The in-memory fallback path of `getCloudTracks`:
`return [...memoryStore].sort(...)` — the spread copies the store, the copy
is sorted and returned, and the store itself is left untouched.  Modelled as
a state-passing function returning (result, memory store after the call). -/
def getCloudTracksFallback (memoryStore : List FeedPost) :
    List FeedPost × List FeedPost :=
  (sortByDateDesc memoryStore, memoryStore)

/-- The in-memory fallback path of `saveTrackToCloud`
(`src/services/cloudService.ts`): `findIndex` on `id`, replacing the found
record in place or pushing the new one at the end. -/
def saveTrackMemory (memoryStore : List FeedPost) (track : FeedPost) :
    List FeedPost :=
  match memoryStore.findIdx? (fun t => t.id == track.id) with
  | some idx => memoryStore.set idx track
  | none => memoryStore ++ [track]

/-- IndexedDB `store.put(track)` on the object store created with
`keyPath: '"'"'id'"'"'` (`openDB` in `cloudService.ts`): per the IndexedDB
contract, `put` replaces the record whose key equals `track.id` or inserts
a new one — the same upsert the memory fallback implements. -/
def idbPut (store : List FeedPost) (track : FeedPost) : List FeedPost :=
  saveTrackMemory store track

/-- First-match upsert, structurally recursive: replaces the first record
carrying `track.id`, or appends `track` when no record carries it.
Auxiliary recursion used to reason about `saveTrackMemory`. -/
def upsertRec (track : FeedPost) : List FeedPost → List FeedPost
  | [] => [track]
  | t :: ts => if t.id = track.id then track :: ts else t :: upsertRec track ts

/-- The Enhancer component'"'"'s session state (`src/views/Enhancer.tsx`): the
`params`, `history` and `historyIndex` React state variables, the decoded
`sourceBuffer`, and the processed output of the last render. -/
structure EnhancerState where
  params : AudioProcessParams
  history : List AudioProcessParams
  historyIndex : ℕ
  sourceBuffer : Option AudioBuffer
  processed : Option (AudioBuffer × List ℕ)

/-- `addToHistory` of `src/views/Enhancer.tsx`: truncates the redo tail
(`history.slice(0, historyIndex + 1)`), appends the committed params, and
points `historyIndex` at the new last entry.  It does not write `params`
(its callers set `params` themselves). -/
def addToHistory (st : EnhancerState) (newParams : AudioProcessParams) :
    EnhancerState :=
  let newHistory := st.history.take (st.historyIndex + 1) ++ [newParams]
  { st with history := newHistory, historyIndex := newHistory.length - 1 }

/-- `updateParam` of `src/views/Enhancer.tsx`: builds
`{ ...params, [key]: value }`, stores it, and commits it to the history when
`commit` is set. -/
def updateParam (st : EnhancerState) (k : ParamKey) (v : ℚ)
    (commit : Bool) : EnhancerState :=
  let newParams := setParam k v st.params
  let st1 := { st with params := newParams }
  if commit then addToHistory st1 newParams else st1

/-- `handleUndo` of `src/views/Enhancer.tsx`. -/
def handleUndo (st : EnhancerState) : EnhancerState :=
  if 0 < st.historyIndex then
    let newIndex := st.historyIndex - 1
    { st with historyIndex := newIndex,
              params := st.history.getD newIndex INITIAL_PARAMS }
  else st

/-- `handleRedo` of `src/views/Enhancer.tsx`. -/
def handleRedo (st : EnhancerState) : EnhancerState :=
  if st.historyIndex < st.history.length - 1 then
    let newIndex := st.historyIndex + 1
    { st with historyIndex := newIndex,
              params := st.history.getD newIndex INITIAL_PARAMS }
  else st

/-- `handleAutoEnhance` of `src/views/Enhancer.tsx`: with a decoded source
buffer present, spreads the analyzer'"'"'s suggestion object over the current
params (`{ ...params, ...suggestions }`), stores the result and commits it
to the history.  The suggestion object is universally quantified because
`analyzeAudioBuffer` lives outside the provided sources. -/
def handleAutoEnhance (st : EnhancerState) (suggestions : AnalysisSuggestion) :
    EnhancerState :=
  match st.sourceBuffer with
  | none => st
  | some _ =>
      let newParams := mergeParams st.params suggestions
      addToHistory { st with params := newParams } newParams

/-- `handleProcess` of `src/views/Enhancer.tsx`: renders the source buffer
with the current params and stores only the processed output; the params
themselves are passed by value to the engine and never written. -/
def handleProcess (st : EnhancerState) : EnhancerState :=
  match st.sourceBuffer with
  | none => st
  | some buf =>
      match render buf st.params with
      | .ok out => { st with processed := some out }
      | .error _ => { st with processed := none }

/-! ### Preservation lemmas for the preset steps -/

theorem resetFx_shift (p : AudioProcessParams) : (resetFx p).shift = p.shift :=
  rfl

theorem childStep_shift (name : String) (p : AudioProcessParams) :
    (childStep name p).shift = p.shift := by
  unfold childStep; split <;> rfl

theorem giantStep_shift (name : String) (p : AudioProcessParams) :
    (giantStep name p).shift = p.shift := by
  unfold giantStep; split <;> rfl

theorem robotStep_shift (name : String) (p : AudioProcessParams) :
    (robotStep name p).shift = p.shift := by
  unfold robotStep; split <;> rfl

theorem alienStep_shift (name : String) (p : AudioProcessParams) :
    (alienStep name p).shift = p.shift := by
  unfold alienStep; split <;> rfl

theorem chorusStep_shift (name : String) (p : AudioProcessParams) :
    (chorusStep name p).shift = p.shift := by
  unfold chorusStep; split <;> rfl

theorem nightcoreStep_shift (name : String) (p : AudioProcessParams) :
    (nightcoreStep name p).shift = p.shift := by
  unfold nightcoreStep; split <;> rfl

theorem slowedStep_shift (name : String) (p : AudioProcessParams) :
    (slowedStep name p).shift = p.shift := by
  unfold slowedStep; split <;> rfl

theorem copyrightStep_shift (name : String) (p : AudioProcessParams) :
    (copyrightStep name p).shift = p.shift := by
  unfold copyrightStep; split <;> rfl

/-- No branch of `applyPreset` writes the `shift` field. -/
theorem applyPreset_shift (name : String) (p : AudioProcessParams) :
    (applyPreset name p).shift = p.shift := by
  unfold applyPreset
  rw [copyrightStep_shift, slowedStep_shift, nightcoreStep_shift,
    chorusStep_shift, alienStep_shift, robotStep_shift, giantStep_shift,
    childStep_shift, resetFx_shift]

/-- No slider control writes the `shift` field. -/
theorem setParam_slider_shift (k : ParamKey) (lo hi v : ℚ)
    (p : AudioProcessParams) (hmem : (k, lo, hi) ∈ sliderControls) :
    (setParam k v p).shift = p.shift := by
  simp only [sliderControls, List.mem_cons, List.not_mem_nil, or_false,
    Prod.mk.injEq] at hmem
  rcases hmem with h | h | h | h | h | h | h | h | h | h | h <;>
    (obtain ⟨rfl, -⟩ := h; rfl)

/-- C1: every parameter object the UI surface produces (initial object,
slider updates, preset applications) has `shift = 0`, the declared
default. -/
theorem shift_never_populated (p : AudioProcessParams)
    (h : ReachableParams p) : p.shift = 0 := by
  induction h with
  | initial => norm_num [INITIAL_PARAMS]
  | slider k lo hi v _ hmem _ _ ih =>
      rw [setParam_slider_shift k lo hi v _ hmem]; exact ih
  | preset name _ ih => rw [applyPreset_shift]; exact ih

theorem inDomain_INITIAL : inDomain INITIAL_PARAMS := by
  unfold inDomain INITIAL_PARAMS; norm_num

theorem inDomain_resetFx (p : AudioProcessParams) (h : inDomain p) :
    inDomain (resetFx p) := by
  unfold resetFx
  unfold inDomain at h ⊢
  obtain ⟨h01, h02, h03, h04, h05, h06, h07, h08, h09, h10, h11, h12, h13,
    h14, h15, h16, h17, h18, h19, h20, h21, h22, h23, h24, h25, h26, h27,
    h28, h29, h30⟩ := h
  repeat' apply And.intro
  all_goals first | assumption | norm_num

theorem inDomain_childStep (name : String) (p : AudioProcessParams)
    (h : inDomain p) : inDomain (childStep name p) := by
  unfold childStep; split
  · unfold inDomain at h ⊢
    obtain ⟨h01, h02, h03, h04, h05, h06, h07, h08, h09, h10, h11, h12, h13,
      h14, h15, h16, h17, h18, h19, h20, h21, h22, h23, h24, h25, h26, h27,
      h28, h29, h30⟩ := h
    repeat' apply And.intro
    all_goals first | assumption | norm_num
  · exact h

theorem inDomain_giantStep (name : String) (p : AudioProcessParams)
    (h : inDomain p) : inDomain (giantStep name p) := by
  unfold giantStep; split
  · unfold inDomain at h ⊢
    obtain ⟨h01, h02, h03, h04, h05, h06, h07, h08, h09, h10, h11, h12, h13,
      h14, h15, h16, h17, h18, h19, h20, h21, h22, h23, h24, h25, h26, h27,
      h28, h29, h30⟩ := h
    repeat' apply And.intro
    all_goals first | assumption | norm_num
  · exact h

theorem inDomain_robotStep (name : String) (p : AudioProcessParams)
    (h : inDomain p) : inDomain (robotStep name p) := by
  unfold robotStep; split
  · unfold inDomain at h ⊢
    obtain ⟨h01, h02, h03, h04, h05, h06, h07, h08, h09, h10, h11, h12, h13,
      h14, h15, h16, h17, h18, h19, h20, h21, h22, h23, h24, h25, h26, h27,
      h28, h29, h30⟩ := h
    repeat' apply And.intro
    all_goals first | assumption | norm_num
  · exact h

theorem inDomain_alienStep (name : String) (p : AudioProcessParams)
    (h : inDomain p) : inDomain (alienStep name p) := by
  unfold alienStep; split
  · unfold inDomain at h ⊢
    obtain ⟨h01, h02, h03, h04, h05, h06, h07, h08, h09, h10, h11, h12, h13,
      h14, h15, h16, h17, h18, h19, h20, h21, h22, h23, h24, h25, h26, h27,
      h28, h29, h30⟩ := h
    repeat' apply And.intro
    all_goals first | assumption | norm_num
  · exact h

theorem inDomain_chorusStep (name : String) (p : AudioProcessParams)
    (h : inDomain p) : inDomain (chorusStep name p) := by
  unfold chorusStep; split
  · unfold inDomain at h ⊢
    obtain ⟨h01, h02, h03, h04, h05, h06, h07, h08, h09, h10, h11, h12, h13,
      h14, h15, h16, h17, h18, h19, h20, h21, h22, h23, h24, h25, h26, h27,
      h28, h29, h30⟩ := h
    repeat' apply And.intro
    all_goals first | assumption | norm_num
  · exact h

theorem inDomain_nightcoreStep (name : String) (p : AudioProcessParams)
    (h : inDomain p) : inDomain (nightcoreStep name p) := by
  unfold nightcoreStep; split
  · unfold inDomain at h ⊢
    obtain ⟨h01, h02, h03, h04, h05, h06, h07, h08, h09, h10, h11, h12, h13,
      h14, h15, h16, h17, h18, h19, h20, h21, h22, h23, h24, h25, h26, h27,
      h28, h29, h30⟩ := h
    repeat' apply And.intro
    all_goals first | assumption | norm_num
  · exact h

theorem inDomain_slowedStep (name : String) (p : AudioProcessParams)
    (h : inDomain p) : inDomain (slowedStep name p) := by
  unfold slowedStep; split
  · unfold inDomain at h ⊢
    obtain ⟨h01, h02, h03, h04, h05, h06, h07, h08, h09, h10, h11, h12, h13,
      h14, h15, h16, h17, h18, h19, h20, h21, h22, h23, h24, h25, h26, h27,
      h28, h29, h30⟩ := h
    repeat' apply And.intro
    all_goals first | assumption | norm_num
  · exact h

theorem inDomain_copyrightStep (name : String) (p : AudioProcessParams)
    (h : inDomain p) : inDomain (copyrightStep name p) := by
  unfold copyrightStep; split
  · unfold inDomain at h ⊢
    obtain ⟨h01, h02, h03, h04, h05, h06, h07, h08, h09, h10, h11, h12, h13,
      h14, h15, h16, h17, h18, h19, h20, h21, h22, h23, h24, h25, h26, h27,
      h28, h29, h30⟩ := h
    repeat' apply And.intro
    all_goals first | assumption | norm_num
  · exact h

/-- Every assignment made by any branch of `applyPreset` lands inside the
declared parameter domains. -/
theorem inDomain_applyPreset (name : String) (p : AudioProcessParams)
    (h : inDomain p) : inDomain (applyPreset name p) :=
  inDomain_copyrightStep _ _ (inDomain_slowedStep _ _
    (inDomain_nightcoreStep _ _ (inDomain_chorusStep _ _
      (inDomain_alienStep _ _ (inDomain_robotStep _ _
        (inDomain_giantStep _ _ (inDomain_childStep _ _
          (inDomain_resetFx _ h))))))))

/-- A slider write respects the domains: each slider's `min`/`max` bounds
coincide with the declared domain of the key it drives. -/
theorem inDomain_setParam_slider (k : ParamKey) (lo hi v : ℚ)
    (p : AudioProcessParams) (hmem : (k, lo, hi) ∈ sliderControls)
    (hlo : lo ≤ v) (hhi : v ≤ hi) (h : inDomain p) :
    inDomain (setParam k v p) := by
  unfold inDomain at h ⊢
  obtain ⟨h01, h02, h03, h04, h05, h06, h07, h08, h09, h10, h11, h12, h13,
    h14, h15, h16, h17, h18, h19, h20, h21, h22, h23, h24, h25, h26, h27,
    h28, h29, h30⟩ := h
  simp only [sliderControls, List.mem_cons, List.not_mem_nil, or_false,
    Prod.mk.injEq] at hmem
  rcases hmem with h | h | h | h | h | h | h | h | h | h | h
  all_goals obtain ⟨rfl, rfl, rfl⟩ := h
  · exact ⟨h01, h02, h03, h04, h05, h06, h07, h08, h09, h10, h11, h12, h13, h14, h15, h16, h17, h18, h19, h20, h21, h22, h23, h24, h25, h26, h27, h28, hlo, hhi⟩
  · exact ⟨hlo, hhi, h03, h04, h05, h06, h07, h08, h09, h10, h11, h12, h13, h14, h15, h16, h17, h18, h19, h20, h21, h22, h23, h24, h25, h26, h27, h28, h29, h30⟩
  · exact ⟨h01, h02, hlo, hhi, h05, h06, h07, h08, h09, h10, h11, h12, h13, h14, h15, h16, h17, h18, h19, h20, h21, h22, h23, h24, h25, h26, h27, h28, h29, h30⟩
  · exact ⟨h01, h02, h03, h04, h05, h06, h07, h08, h09, h10, h11, h12, h13, h14, h15, h16, h17, h18, h19, h20, h21, h22, h23, h24, h25, h26, hlo, hhi, h29, h30⟩
  · exact ⟨h01, h02, h03, h04, h05, h06, h07, h08, h09, h10, h11, h12, h13, h14, h15, h16, h17, h18, h19, h20, h21, h22, h23, h24, hlo, hhi, h27, h28, h29, h30⟩
  · exact ⟨h01, h02, h03, h04, h05, h06, h07, h08, hlo, hhi, h11, h12, h13, h14, h15, h16, h17, h18, h19, h20, h21, h22, h23, h24, h25, h26, h27, h28, h29, h30⟩
  · exact ⟨h01, h02, h03, h04, h05, h06, h07, h08, h09, h10, hlo, hhi, h13, h14, h15, h16, h17, h18, h19, h20, h21, h22, h23, h24, h25, h26, h27, h28, h29, h30⟩
  · exact ⟨h01, h02, h03, h04, h05, h06, h07, h08, h09, h10, h11, h12, h13, h14, h15, h16, h17, h18, hlo, hhi, h21, h22, h23, h24, h25, h26, h27, h28, h29, h30⟩
  · exact ⟨h01, h02, h03, h04, h05, h06, h07, h08, h09, h10, h11, h12, h13, h14, h15, h16, h17, h18, h19, h20, hlo, hhi, h23, h24, h25, h26, h27, h28, h29, h30⟩
  · exact ⟨h01, h02, h03, h04, h05, h06, h07, h08, h09, h10, h11, h12, hlo, hhi, h15, h16, h17, h18, h19, h20, h21, h22, h23, h24, h25, h26, h27, h28, h29, h30⟩
  · exact ⟨h01, h02, h03, h04, h05, h06, h07, h08, h09, h10, h11, h12, h13, h14, h15, h16, hlo, hhi, h19, h20, h21, h22, h23, h24, h25, h26, h27, h28, h29, h30⟩

/-- C2: every parameter object the UI surface can produce (initial object,
slider-bounded updates, preset applications) lies within the declared
`[min, max]` domain of every constrained parameter. -/
theorem ui_params_in_domain (p : AudioProcessParams)
    (h : ReachableParams p) : inDomain p := by
  induction h with
  | initial => exact inDomain_INITIAL
  | slider k lo hi v _ hmem hlo hhi ih =>
      exact inDomain_setParam_slider k lo hi v _ hmem hlo hhi ih
  | preset name _ ih => exact inDomain_applyPreset name _ ih

/-! ### C3: merge without mutation -/

theorem mergeParams_override (p : AudioProcessParams)
    (s : AnalysisSuggestion) (k : ParamKey) :
    getParam (mergeParams p s) k = (getSuggestion s k).getD (getParam p k) := by
  cases k <;> rfl

/-- C3: `handleAutoEnhance` merges the caller's `ParameterSet` with an
`AnalysisSuggestion` without mutation: the committed set overrides exactly
the keys present in the suggestion and keeps every other key; the
previously committed sets stored in the history are untouched; and a render
call (`handleProcess`) never writes the caller's params. -/
theorem autoEnhance_merge_no_mutation (st : EnhancerState)
    (sugg : AnalysisSuggestion) (hbuf : st.sourceBuffer.isSome) :
    (∀ k v, getSuggestion sugg k = some v →
        getParam (handleAutoEnhance st sugg).params k = v) ∧
    (∀ k, getSuggestion sugg k = none →
        getParam (handleAutoEnhance st sugg).params k = getParam st.params k) ∧
    (∀ i, i ≤ st.historyIndex → i < st.history.length →
        (handleAutoEnhance st sugg).history.get? i = st.history.get? i) ∧
    (∀ st2 : EnhancerState, (handleProcess st2).params = st2.params) := by
  obtain ⟨buf, hb⟩ := Option.isSome_iff_exists.mp hbuf
  have heval : handleAutoEnhance st sugg =
      addToHistory { st with params := mergeParams st.params sugg }
        (mergeParams st.params sugg) := by
    unfold handleAutoEnhance; rw [hb]
  refine ⟨?_, ?_, ?_, ?_⟩
  · intro k v hk
    have hp : (handleAutoEnhance st sugg).params = mergeParams st.params sugg := by
      rw [heval]; rfl
    rw [hp, mergeParams_override, hk]; rfl
  · intro k hk
    have hp : (handleAutoEnhance st sugg).params = mergeParams st.params sugg := by
      rw [heval]; rfl
    rw [hp, mergeParams_override, hk]; rfl
  · intro i hi hlen
    rw [heval]
    show (st.history.take (st.historyIndex + 1) ++ [mergeParams st.params sugg]).get? i
        = st.history.get? i
    rw [List.get?_append, List.get?_take (Nat.lt_succ_of_le hi)]
    rw [List.length_take]
    exact lt_min (Nat.lt_succ_of_le hi) hlen
  · intro st2
    unfold handleProcess
    split
    · rfl
    · split <;> rfl

/-! ### C10: history, undo and redo -/

/-- C10 (amended): on a state whose current `params` agree with the history
entry at `historyIndex` (no uncommitted slider edit), undo followed by redo
restores `historyIndex`, `params` and the history itself; and after every
`addToHistory`, `historyIndex` points at the last entry, which is the newly
committed params. -/
theorem undo_redo_roundtrip (st : EnhancerState)
    (h0 : 0 < st.historyIndex) (hlen : st.historyIndex < st.history.length)
    (hsync : st.params = st.history.getD st.historyIndex INITIAL_PARAMS) :
    ((handleRedo (handleUndo st)).historyIndex = st.historyIndex ∧
     (handleRedo (handleUndo st)).params = st.params ∧
     (handleRedo (handleUndo st)).history = st.history) ∧
    (∀ (s : EnhancerState) (q : AudioProcessParams),
      (addToHistory s q).historyIndex = (addToHistory s q).history.length - 1 ∧
      (addToHistory s q).history.getD (addToHistory s q).historyIndex
          INITIAL_PARAMS = q) := by
  constructor
  · have hundo : handleUndo st =
        { st with historyIndex := st.historyIndex - 1,
                  params := st.history.getD (st.historyIndex - 1) INITIAL_PARAMS } := by
      unfold handleUndo; rw [if_pos h0]
    have hguard : (handleUndo st).historyIndex < (handleUndo st).history.length - 1 := by
      rw [hundo]; dsimp only; omega
    have hredo : handleRedo (handleUndo st) =
        { handleUndo st with
            historyIndex := (handleUndo st).historyIndex + 1,
            params := (handleUndo st).history.getD
              ((handleUndo st).historyIndex + 1) INITIAL_PARAMS } := by
      unfold handleRedo; rw [if_pos hguard]
    rw [hredo, hundo]
    dsimp only
    have hidx : st.historyIndex - 1 + 1 = st.historyIndex := Nat.succ_pred_eq_of_pos h0
    refine ⟨hidx, ?_, rfl⟩
    rw [hidx, hsync]
  · intro s q
    constructor
    · rfl
    · show (s.history.take (s.historyIndex + 1) ++ [q]).getD
          ((s.history.take (s.historyIndex + 1) ++ [q]).length - 1)
          INITIAL_PARAMS = q
      rw [List.length_append, List.length_singleton, Nat.add_sub_cancel]
      unfold List.getD
      rw [List.get?_append_right (le_refl _), Nat.sub_self]
      rfl

/-- The initial Enhancer session state: `params = INITIAL_PARAMS`,
`history = [INITIAL_PARAMS]`, `historyIndex = 0`. -/
def initialEnhancerState : EnhancerState :=
  { params := INITIAL_PARAMS
    history := [INITIAL_PARAMS]
    historyIndex := 0
    sourceBuffer := none
    processed := none }

/-- A reachable state with an uncommitted slider edit: one committed pitch
change (commit = true) followed by a live drag (commit = false). -/
def uncommittedEditState : EnhancerState :=
  updateParam (updateParam initialEnhancerState .pitch 3 true) .pitch 5 false

/-- C10 counterexample: on the reachable state with an uncommitted slider
edit (`params.pitch = 5`, while `history[historyIndex].pitch = 3`),
undo followed by redo does not restore the current params: it yields the
last committed set instead. -/
theorem undo_redo_not_identity :
    0 < uncommittedEditState.historyIndex ∧
    (handleRedo (handleUndo uncommittedEditState)).params
      ≠ uncommittedEditState.params := by
  constructor
  · norm_num [uncommittedEditState, updateParam, addToHistory,
      initialEnhancerState]
  · intro h
    have hpitch := congrArg AudioProcessParams.pitch h
    norm_num [uncommittedEditState, updateParam, addToHistory,
      initialEnhancerState, handleUndo, handleRedo, setParam,
      INITIAL_PARAMS] at hpitch

/-! ### C8: getCloudTracks ordering -/

/-- C8: `getCloudTracks` returns the stored tracks sorted by date in
non-increasing (newest-first) order — in the IndexedDB path (sorting the
`getAll` result) as in the memory fallback — and the fallback sorts a copy,
leaving the memory store itself unchanged. -/
theorem getCloudTracks_sorted_desc (stored memoryStore : List FeedPost) :
    (getCloudTracksIDB stored).Pairwise (fun a b => b.date ≤ a.date) ∧
    (getCloudTracksIDB stored).Perm stored ∧
    ((getCloudTracksFallback memoryStore).1.Pairwise
        (fun a b => b.date ≤ a.date) ∧
     (getCloudTracksFallback memoryStore).1.Perm memoryStore) ∧
    (getCloudTracksFallback memoryStore).2 = memoryStore := by
  have hsorted : ∀ l : List FeedPost,
      (sortByDateDesc l).Pairwise (fun a b => b.date ≤ a.date) := by
    intro l
    have hs := @List.sorted_mergeSort FeedPost
      (fun a b => decide (b.date ≤ a.date))
      (fun a b c h1 h2 => by
        simp only [decide_eq_true_eq] at h1 h2 ⊢; exact le_trans h2 h1)
      (fun a b => by
        simp only [Bool.or_eq_true, decide_eq_true_eq]; exact le_total _ _) l
    exact hs.imp (fun h => by exact of_decide_eq_true h)
  have hperm : ∀ l : List FeedPost, (sortByDateDesc l).Perm l :=
    fun l => List.mergeSort_perm l _
  exact ⟨hsorted stored, hperm stored,
    ⟨hsorted memoryStore, hperm memoryStore⟩, rfl⟩

/-! ### C9: saveTrackToCloud upsert -/

theorem saveTrackMemory_cons_eq (t track : FeedPost) (ts : List FeedPost)
    (h : t.id = track.id) :
    saveTrackMemory (t :: ts) track = track :: ts := by
  unfold saveTrackMemory
  rw [List.findIdx?_cons]
  simp [h]

theorem saveTrackMemory_cons_ne (t track : FeedPost) (ts : List FeedPost)
    (h : ¬ t.id = track.id) :
    saveTrackMemory (t :: ts) track = t :: saveTrackMemory ts track := by
  unfold saveTrackMemory
  rw [List.findIdx?_cons]
  have hbeq : (t.id == track.id) = false := beq_eq_false_iff_ne.mpr h
  rw [hbeq]
  cases hts : List.findIdx? (fun x => x.id == track.id) ts with
  | none => simp [hts]
  | some i => simp [hts]

theorem saveTrackMemory_eq_upsertRec (track : FeedPost) :
    ∀ store : List FeedPost, saveTrackMemory store track = upsertRec track store := by
  intro store
  induction store with
  | nil => rfl
  | cons t ts ih =>
      by_cases h : t.id = track.id
      · rw [saveTrackMemory_cons_eq t track ts h]
        simp only [upsertRec]
        rw [if_pos h]
      · rw [saveTrackMemory_cons_ne t track ts h, ih]
        simp only [upsertRec]
        rw [if_neg h]

theorem upsertRec_mem (track x : FeedPost) :
    ∀ l : List FeedPost, x ∈ upsertRec track l → x = track ∨ x ∈ l := by
  intro l
  induction l with
  | nil => intro hx; simp [upsertRec] at hx; exact Or.inl hx
  | cons t ts ih =>
      intro hx
      unfold upsertRec at hx
      by_cases h : t.id = track.id
      · rw [if_pos h] at hx
        rcases List.mem_cons.mp hx with h1 | h1
        · exact Or.inl h1
        · exact Or.inr (List.mem_cons_of_mem _ h1)
      · rw [if_neg h] at hx
        rcases List.mem_cons.mp hx with h1 | h1
        · exact Or.inr (h1 ▸ List.mem_cons_self _ _)
        · rcases ih h1 with h2 | h2
          · exact Or.inl h2
          · exact Or.inr (List.mem_cons_of_mem _ h2)

theorem upsertRec_props (track : FeedPost) :
    ∀ store : List FeedPost, (store.map FeedPost.id).Nodup →
    (upsertRec track store).countP (fun t => t.id == track.id) = 1 ∧
    (∀ t ∈ upsertRec track store, t.id = track.id → t = track) ∧
    ((upsertRec track store).filter (fun t => !(t.id == track.id))
        = store.filter (fun t => !(t.id == track.id))) ∧
    ((upsertRec track store).map FeedPost.id).Nodup := by
  intro store
  induction store with
  | nil =>
      intro _
      refine ⟨?_, ?_, ?_, ?_⟩
      · simp [upsertRec]
      · intro t ht _; simpa [upsertRec] using ht
      · simp [upsertRec]
      · simp [upsertRec]
  | cons t ts ih =>
      intro hnodup
      rw [List.map_cons, List.nodup_cons] at hnodup
      obtain ⟨hnotin, hnodup'⟩ := hnodup
      by_cases h : t.id = track.id
      · have hzero : ts.countP (fun x => x.id == track.id) = 0 := by
          apply List.countP_eq_zero.mpr
          intro a ha
          simp only [beq_eq_false_iff_ne, ne_eq, Bool.not_eq_true]
          intro hcontra
          apply hnotin
          rw [h] at hnotin ⊢
          exact hcontra ▸ List.mem_map_of_mem FeedPost.id ha
        refine ⟨?_, ?_, ?_, ?_⟩
        · unfold upsertRec
          rw [if_pos h, List.countP_cons]
          simp [hzero]
        · unfold upsertRec
          rw [if_pos h]
          intro u hu hid
          rcases List.mem_cons.mp hu with h1 | h1
          · exact h1
          · exfalso
            have : ts.countP (fun x => x.id == track.id) ≠ 0 := by
              apply List.countP_pos.mpr ⟨u, h1, by simp [hid]⟩ |>.ne'
            exact this hzero
        · unfold upsertRec
          rw [if_pos h, List.filter_cons, List.filter_cons]
          simp [h]
        · unfold upsertRec
          rw [if_pos h, List.map_cons, List.nodup_cons]
          exact ⟨h ▸ hnotin, hnodup'⟩
      · obtain ⟨ih1, ih2, ih3, ih4⟩ := ih hnodup'
        refine ⟨?_, ?_, ?_, ?_⟩
        · unfold upsertRec
          rw [if_neg h, List.countP_cons]
          simp [h, ih1]
        · unfold upsertRec
          rw [if_neg h]
          intro u hu hid
          rcases List.mem_cons.mp hu with h1 | h1
          · exact absurd (h1 ▸ hid) h
          · exact ih2 u h1 hid
        · unfold upsertRec
          rw [if_neg h, List.filter_cons, List.filter_cons]
          simp only [beq_eq_false_iff_ne, ne_eq, h, not_false_eq_true,
            Bool.not_eq_true', decide_eq_false_iff_not]
          simp [h, ih3]
        · unfold upsertRec
          rw [if_neg h, List.map_cons, List.nodup_cons]
          refine ⟨?_, ih4⟩
          intro hcontra
          rcases List.mem_map.mp hcontra with ⟨u, hu, hid⟩
          rcases upsertRec_mem track u ts hu with h1 | h1
          · exact h (by rw [← hid, h1])
          · exact hnotin (hid ▸ List.mem_map_of_mem FeedPost.id h1)

/-- C9: `saveTrackToCloud` is an upsert keyed on `id`: after the call the
store holds exactly one record with the saved id (the saved record itself —
an existing record is replaced, never duplicated), records with other ids
are unchanged, id-uniqueness is preserved, and the IndexedDB `put` path has
the same upsert semantics as the memory fallback. -/
theorem saveTrack_upsert (store : List FeedPost) (track : FeedPost)
    (hnodup : (store.map FeedPost.id).Nodup) :
    (saveTrackMemory store track).countP (fun t => t.id == track.id) = 1 ∧
    (∀ t ∈ saveTrackMemory store track, t.id = track.id → t = track) ∧
    ((saveTrackMemory store track).filter (fun t => !(t.id == track.id))
        = store.filter (fun t => !(t.id == track.id))) ∧
    ((saveTrackMemory store track).map FeedPost.id).Nodup ∧
    idbPut store track = saveTrackMemory store track := by
  rw [saveTrackMemory_eq_upsertRec]
  obtain ⟨h1, h2, h3, h4⟩ := upsertRec_props track store hnodup
  exact ⟨h1, h2, h3, h4, by rw [idbPut, saveTrackMemory_eq_upsertRec]⟩

/-! ### C4: progress reporting -/

theorem progressReports_ne_nil (n : ℕ) (h : 0 < n) :
    progressReports n ≠ [] := by
  intro hc
  have hlen := congrArg List.length hc
  simp only [progressReports, List.length_map, List.length_range,
    List.length_nil] at hlen
  omega

theorem progressReports_le (n : ℕ) (v : ℕ) (h : v ∈ progressReports n) :
    v ≤ 100 := by
  simp only [progressReports, List.mem_map, List.mem_range] at h
  obtain ⟨i, hi, rfl⟩ := h
  calc (i + 1) * 100 / n ≤ n * 100 / n :=
        Nat.div_le_div_right (Nat.mul_le_mul_right 100 hi)
    _ = 100 := Nat.mul_div_cancel_left 100 (by omega)

theorem progressReports_chain (n : ℕ) :
    (progressReports n).Chain' (· ≤ ·) := by
  unfold progressReports
  rw [List.chain'_map]
  cases n with
  | zero => exact List.chain'_nil
  | succ m =>
      rw [List.chain'_range_succ]
      intro i _
      exact Nat.div_le_div_right (Nat.mul_le_mul_right 100 (by omega))

theorem progressReports_last (n : ℕ) (h : 0 < n) :
    (progressReports n).getLast? = some 100 := by
  obtain ⟨m, rfl⟩ := Nat.exists_eq_add_of_lt h
  unfold progressReports
  rw [Nat.zero_add, List.range_succ, List.map_append, List.map_singleton,
    List.getLast?_concat]
  congr 1
  exact Nat.mul_div_cancel_left 100 (Nat.succ_pos m)

/-- C4: during every successful render call, the progress callback is
invoked at least once, every reported value lies in [0, 100] (values are
naturals, hence ≥ 0), successive values are non-decreasing, and the final
invocation reports exactly 100. -/
theorem render_progress_contract (b : AudioBuffer) (p : AudioProcessParams)
    (out : AudioBuffer × List ℕ) (h : render b p = Except.ok out) :
    out.2 ≠ [] ∧ (∀ v ∈ out.2, v ≤ 100) ∧ out.2.Chain' (· ≤ ·) ∧
      out.2.getLast? = some 100 := by
  unfold render at h
  split at h
  · cases h
    refine ⟨progressReports_ne_nil _ (Nat.succ_pos _), ?_, ?_, ?_⟩
    · intro v hv; exact progressReports_le _ v hv
    · exact progressReports_chain _
    · exact progressReports_last _ (Nat.succ_pos _)
  · cases h

/-! ### C5: clamping at pipeline entry -/

theorem le_clampQ (lo hi x : ℚ) : lo ≤ clampQ lo hi x := le_max_left _ _

theorem clampQ_le (lo hi x : ℚ) (h : lo ≤ hi) : clampQ lo hi x ≤ hi :=
  max_le h (min_le_left _ _)

theorem clampQ_of_mem (lo hi x : ℚ) (h1 : lo ≤ x) (h2 : x ≤ hi) :
    clampQ lo hi x = x := by
  unfold clampQ
  rw [min_eq_right h2, max_eq_right h1]

theorem inDomain_clampParams (p : AudioProcessParams) :
    inDomain (clampParams p) := by
  unfold inDomain clampParams
  exact ⟨le_clampQ _ _ _, clampQ_le _ _ _ (by norm_num),
    le_clampQ _ _ _, clampQ_le _ _ _ (by norm_num),
    le_clampQ _ _ _, clampQ_le _ _ _ (by norm_num),
    le_clampQ _ _ _, clampQ_le _ _ _ (by norm_num),
    le_clampQ _ _ _, clampQ_le _ _ _ (by norm_num),
    le_clampQ _ _ _, clampQ_le _ _ _ (by norm_num),
    le_clampQ _ _ _, clampQ_le _ _ _ (by norm_num),
    le_clampQ _ _ _, clampQ_le _ _ _ (by norm_num),
    le_clampQ _ _ _, clampQ_le _ _ _ (by norm_num),
    le_clampQ _ _ _, clampQ_le _ _ _ (by norm_num),
    le_clampQ _ _ _, clampQ_le _ _ _ (by norm_num),
    le_clampQ _ _ _, clampQ_le _ _ _ (by norm_num),
    le_clampQ _ _ _, clampQ_le _ _ _ (by norm_num),
    le_clampQ _ _ _, clampQ_le _ _ _ (by norm_num),
    le_clampQ _ _ _, clampQ_le _ _ _ (by norm_num)⟩

theorem clampParams_of_inDomain (p : AudioProcessParams) (h : inDomain p) :
    clampParams p = p := by
  obtain ⟨h01, h02, h03, h04, h05, h06, h07, h08, h09, h10, h11, h12, h13,
    h14, h15, h16, h17, h18, h19, h20, h21, h22, h23, h24, h25, h26, h27,
    h28, h29, h30⟩ := h
  unfold clampParams
  rw [clampQ_of_mem _ _ _ h01 h02, clampQ_of_mem _ _ _ h03 h04,
    clampQ_of_mem _ _ _ h05 h06, clampQ_of_mem _ _ _ h07 h08,
    clampQ_of_mem _ _ _ h09 h10, clampQ_of_mem _ _ _ h11 h12,
    clampQ_of_mem _ _ _ h13 h14, clampQ_of_mem _ _ _ h15 h16,
    clampQ_of_mem _ _ _ h17 h18, clampQ_of_mem _ _ _ h19 h20,
    clampQ_of_mem _ _ _ h21 h22, clampQ_of_mem _ _ _ h23 h24,
    clampQ_of_mem _ _ _ h25 h26, clampQ_of_mem _ _ _ h27 h28,
    clampQ_of_mem _ _ _ h29 h30]

theorem clampParams_idem (p : AudioProcessParams) :
    clampParams (clampParams p) = clampParams p :=
  clampParams_of_inDomain _ (inDomain_clampParams p)

/-- C5: for every buffer and every parameter set — including one with
values outside their declared domains — rendering clamps each parameter
into its domain once at pipeline entry (the stage chain receives
`clampParams p`, which is in-domain, before any stage runs), proceeds with
the clamped values (rendering `p` equals rendering the already-clamped
set), and never raises a validation failure for out-of-domain parameter
values alone: on a structurally valid buffer the render succeeds. -/
theorem render_clamps_at_entry (b : AudioBuffer) (p : AudioProcessParams)
    (hv : structurallyValid b) :
    render b p = Except.ok (runStages (clampParams p) b,
        progressReports (numBlocks b)) ∧
    inDomain (clampParams p) ∧
    render b p = render b (clampParams p) := by
  refine ⟨?_, inDomain_clampParams p, ?_⟩
  · unfold render
    rw [if_pos hv]
  · unfold render
    rw [clampParams_idem]

/-! ### C6: stretch and duration -/

theorem stretchStage_frameCount (b : AudioBuffer) (s : ℚ) :
    (stretchStage s b).frameCount = (round ((b.frameCount : ℚ) * s)).toNat :=
  rfl

theorem pitchShiftStage_frameCount (p : ℚ) (b : AudioBuffer) :
    (pitchShiftStage p b).frameCount = b.frameCount := rfl

theorem stretchStage_sampleRate (b : AudioBuffer) (s : ℚ) :
    (stretchStage s b).sampleRate = b.sampleRate := rfl

theorem round_nonneg_q (x : ℚ) (h : 0 ≤ x) : 0 ≤ round x := by
  rw [round_eq]
  exact Int.floor_nonneg.mpr (by linarith)

theorem stretch_exact_helper (b : AudioBuffer) (s : ℚ) (k : ℕ)
    (hk : (b.frameCount : ℚ) * s = (k : ℚ)) :
    duration (stretchStage s b) = (k : ℚ) / (b.sampleRate : ℚ) := by
  unfold duration
  rw [stretchStage_frameCount, stretchStage_sampleRate, hk, round_natCast,
    Int.toNat_ofNat]

/-- C6: the pitch/time-stretch stage produces
`frameCount = round(input frameCount × stretch)`; a pitch shift alone
(stretch = 1) never changes the frame count; in general the output duration
differs from `input duration × stretch` by at most half a frame
(`1/(2·sampleRate)` seconds); and on a 4.0-second buffer the output
duration is exactly `4.0 × stretch` — hence within ±2% — for
stretch ∈ {0.5, 1.0, 1.5}. -/
theorem stretch_duration_contract (b : AudioBuffer) (s : ℚ)
    (hs1 : 0.5 ≤ s) (hs2 : s ≤ 1.5) (hr : 0 < b.sampleRate) :
    ((stretchStage s b).frameCount = (round ((b.frameCount : ℚ) * s)).toNat) ∧
    (∀ pitch : ℚ, (stretchStage 1 (pitchShiftStage pitch b)).frameCount
        = b.frameCount) ∧
    |duration (stretchStage s b) - duration b * s|
        ≤ 1 / (2 * (b.sampleRate : ℚ)) ∧
    (b.frameCount = 4 * b.sampleRate →
      duration (stretchStage 0.5 b) = 4 * 0.5 ∧
      duration (stretchStage 1 b) = 4 * 1 ∧
      duration (stretchStage 1.5 b) = 4 * 1.5) := by
  have hrq : (0 : ℚ) < (b.sampleRate : ℚ) := by exact_mod_cast hr
  have hrne : (b.sampleRate : ℚ) ≠ 0 := ne_of_gt hrq
  refine ⟨rfl, ?_, ?_, ?_⟩
  · intro pitch
    rw [stretchStage_frameCount, pitchShiftStage_frameCount, mul_one,
      round_natCast, Int.toNat_ofNat]
  · set x : ℚ := (b.frameCount : ℚ) * s with hx
    have hx0 : 0 ≤ x := mul_nonneg (Nat.cast_nonneg _) (by linarith)
    have hm0 : (0 : ℤ) ≤ round x := round_nonneg_q x hx0
    have hcast : (((round x).toNat : ℕ) : ℚ) = ((round x : ℤ) : ℚ) := by
      exact_mod_cast congrArg (fun z : ℤ => (z : ℚ)) (Int.toNat_of_nonneg hm0)
    have hdur : duration (stretchStage s b)
        = ((round x : ℤ) : ℚ) / (b.sampleRate : ℚ) := by
      unfold duration
      rw [stretchStage_frameCount, stretchStage_sampleRate, ← hx, hcast]
    rw [hdur]
    unfold duration
    have habs : |((round x : ℤ) : ℚ) - x| ≤ 1 / 2 := by
      rw [abs_sub_comm]
      exact abs_sub_round x
    calc |((round x : ℤ) : ℚ) / (b.sampleRate : ℚ)
            - (b.frameCount : ℚ) / (b.sampleRate : ℚ) * s|
        = |(((round x : ℤ) : ℚ) - x) / (b.sampleRate : ℚ)| := by
          rw [div_mul_eq_mul_div, ← hx, div_sub_div_same]
      _ = |((round x : ℤ) : ℚ) - x| / (b.sampleRate : ℚ) := by
          rw [abs_div, abs_of_pos hrq]
      _ ≤ (1 / 2) / (b.sampleRate : ℚ) :=
          (div_le_div_right hrq).mpr habs
      _ = 1 / (2 * (b.sampleRate : ℚ)) := by ring
  · intro h4
    refine ⟨?_, ?_, ?_⟩
    · rw [stretch_exact_helper b 0.5 (2 * b.sampleRate)
        (by rw [h4]; push_cast; norm_num; ring)]
      push_cast
      field_simp
      norm_num
    · rw [stretch_exact_helper b 1 (4 * b.sampleRate)
        (by rw [h4]; push_cast; ring)]
      push_cast
      field_simp
    · rw [stretch_exact_helper b 1.5 (6 * b.sampleRate)
        (by rw [h4]; push_cast; norm_num; ring)]
      push_cast
      field_simp
      norm_num

/-! ### C7: determinism -/

/-- C7: rendering is deterministic: the engine is a pure function of
`(buffer, params)` — the model has no hidden state, randomness or ambient
input — so two render calls with identical inputs return identical outputs,
sample-exact in the rational model (no floating-point tolerance needed). -/
theorem render_deterministic (b1 b2 : AudioBuffer)
    (p1 p2 : AudioProcessParams) (hb : b1 = b2) (hp : p1 = p2) :
    render b1 p1 = render b2 p2 := by
  rw [hb, hp]

/-! ### Concrete instances and witnesses -/

/-- A small structurally valid test buffer: 100 Hz, 4 frames, one channel. -/
def bufW : AudioBuffer :=
  { sampleRate := 100, frameCount := 4, channels := [[0, 0, 0, 0]] }

/-- A 4.0-second test buffer: 2 Hz, 8 frames, one channel. -/
def buf4s : AudioBuffer :=
  { sampleRate := 2, frameCount := 8, channels := [List.replicate 8 0] }

/-- A session state with a decoded source buffer present. -/
def stWithBuffer : EnhancerState :=
  { initialEnhancerState with sourceBuffer := some bufW }

/-- A concrete partial suggestion object. -/
def suggW : AnalysisSuggestion := { denoise := some 0.5, master := some 2 }

/-- A session state with one committed pitch change. -/
def stCommitted : EnhancerState :=
  updateParam initialEnhancerState .pitch 3 true

/-- A concrete cloud store with distinct ids. -/
def storeW : List FeedPost :=
  [ { id := "a", name := "first", date := 5 },
    { id := "b", name := "second", date := 3 } ]

/-- A track that shares its id with the first stored record. -/
def trackW : FeedPost := { id := "a", name := "updated", date := 9 }

theorem shift_never_populated_witness :
    (applyPreset "Nightcore" INITIAL_PARAMS).shift = 0 :=
  shift_never_populated _
    (ReachableParams.preset "Nightcore" ReachableParams.initial)

theorem ui_params_in_domain_witness :
    inDomain (setParam .pitch 5 INITIAL_PARAMS) :=
  ui_params_in_domain _
    (ReachableParams.slider .pitch (-12) 12 5 ReachableParams.initial
      (List.Mem.tail _ (List.Mem.head _)) (by norm_num) (by norm_num))

theorem autoEnhance_merge_no_mutation_witness :
    (∀ k v, getSuggestion suggW k = some v →
        getParam (handleAutoEnhance stWithBuffer suggW).params k = v) ∧
    (∀ k, getSuggestion suggW k = none →
        getParam (handleAutoEnhance stWithBuffer suggW).params k
          = getParam stWithBuffer.params k) ∧
    (∀ i, i ≤ stWithBuffer.historyIndex → i < stWithBuffer.history.length →
        (handleAutoEnhance stWithBuffer suggW).history.get? i
          = stWithBuffer.history.get? i) ∧
    (∀ st2 : EnhancerState, (handleProcess st2).params = st2.params) :=
  autoEnhance_merge_no_mutation stWithBuffer suggW rfl

/-- The output of the witness render call. -/
def renderOutW : AudioBuffer × List ℕ :=
  (runStages (clampParams INITIAL_PARAMS) bufW,
    progressReports (numBlocks bufW))

theorem render_progress_contract_witness :
    renderOutW.2 ≠ [] ∧ (∀ v ∈ renderOutW.2, v ≤ 100) ∧
      renderOutW.2.Chain' (· ≤ ·) ∧ renderOutW.2.getLast? = some 100 :=
  render_progress_contract bufW INITIAL_PARAMS renderOutW
    (by unfold render renderOutW; rw [if_pos (by decide)])

theorem render_clamps_at_entry_witness :
    render bufW (setParam .stretch 9 INITIAL_PARAMS)
        = Except.ok
            (runStages (clampParams (setParam .stretch 9 INITIAL_PARAMS)) bufW,
             progressReports (numBlocks bufW)) ∧
    inDomain (clampParams (setParam .stretch 9 INITIAL_PARAMS)) ∧
    render bufW (setParam .stretch 9 INITIAL_PARAMS)
        = render bufW (clampParams (setParam .stretch 9 INITIAL_PARAMS)) :=
  render_clamps_at_entry bufW (setParam .stretch 9 INITIAL_PARAMS) (by decide)

theorem stretch_duration_contract_witness :
    ((stretchStage 1.5 buf4s).frameCount
        = (round ((buf4s.frameCount : ℚ) * 1.5)).toNat) ∧
    (∀ pitch : ℚ, (stretchStage 1 (pitchShiftStage pitch buf4s)).frameCount
        = buf4s.frameCount) ∧
    |duration (stretchStage 1.5 buf4s) - duration buf4s * 1.5|
        ≤ 1 / (2 * (buf4s.sampleRate : ℚ)) ∧
    (buf4s.frameCount = 4 * buf4s.sampleRate →
      duration (stretchStage 0.5 buf4s) = 4 * 0.5 ∧
      duration (stretchStage 1 buf4s) = 4 * 1 ∧
      duration (stretchStage 1.5 buf4s) = 4 * 1.5) :=
  stretch_duration_contract buf4s 1.5 (by norm_num) (by norm_num) (by decide)

theorem render_deterministic_witness :
    render bufW INITIAL_PARAMS = render bufW INITIAL_PARAMS :=
  render_deterministic bufW bufW INITIAL_PARAMS INITIAL_PARAMS rfl rfl

theorem saveTrack_upsert_witness :
    (saveTrackMemory storeW trackW).countP (fun t => t.id == trackW.id) = 1 ∧
    (∀ t ∈ saveTrackMemory storeW trackW, t.id = trackW.id → t = trackW) ∧
    ((saveTrackMemory storeW trackW).filter (fun t => !(t.id == trackW.id))
        = storeW.filter (fun t => !(t.id == trackW.id))) ∧
    ((saveTrackMemory storeW trackW).map FeedPost.id).Nodup ∧
    idbPut storeW trackW = saveTrackMemory storeW trackW :=
  saveTrack_upsert storeW trackW (by decide)

theorem undo_redo_roundtrip_witness :
    ((handleRedo (handleUndo stCommitted)).historyIndex
        = stCommitted.historyIndex ∧
     (handleRedo (handleUndo stCommitted)).params = stCommitted.params ∧
     (handleRedo (handleUndo stCommitted)).history = stCommitted.history) ∧
    (∀ (s : EnhancerState) (q : AudioProcessParams),
      (addToHistory s q).historyIndex = (addToHistory s q).history.length - 1 ∧
      (addToHistory s q).history.getD (addToHistory s q).historyIndex
          INITIAL_PARAMS = q) :=
  undo_redo_roundtrip stCommitted (by decide) (by decide) rfl
